import Mathlib

/-!
A verification development for the menu-backend extraction pipeline
(`src/main.py`).  The Python functions `parse_item`, `parse_menu_from_data`,
`extract_offers_from_data`, `flatten_items_with_variants` and the
reconciliation core of `compare_offers` are embedded shallowly:

* JSON documents are modelled by the inductive `JVal`; JSON numbers are
  modelled as integers (the upstream payload carries integer minor-unit
  prices).
* A Python expression that may raise is modelled in `Except Unit`; the
  `try/except` blocks of the source become explicit handlers.  Loops that
  mutate an accumulator inside a `try` return the accumulated list together
  with an error flag, so a caught exception keeps the records appended
  before it.
* Python iteration is modelled on lists only (`asList`); iterating any
  non-list raises in the model.  (CPython would iterate the keys of a dict
  or the characters of a string, but every element so produced is a string
  whose first `.get` raises, so the observable results of the embedded
  functions agree.)
* `flatten_items_with_variants` mutates its argument (`item.pop`); the
  embedding returns the flattened rows together with the post-call state of
  the input list.
-/

/-- A JSON-like value: the shape of the upstream payload. -/
inductive JVal where
  | null
  | bool (b : Bool)
  | int (n : Int)
  | str (s : String)
  | arr (elems : List JVal)
  | obj (fields : List (String × JVal))

/-- Python truthiness (`bool(v)`) for the modelled values. -/
def JVal.truthy : JVal → Bool
  | .null => false
  | .bool b => b
  | .int n => n != 0
  | .str s => !s.isEmpty
  | .arr l => !l.isEmpty
  | .obj l => !l.isEmpty

/-- Association-list lookup used to model dict key access. -/
def jfind (fields : List (String × JVal)) (k : String) : Option JVal :=
  (fields.find? (fun p => p.1 == k)).map (fun p => p.2)

/-- Python `v.get(k, dflt)`: total on dicts, raises (`AttributeError`) on
anything else. -/
def JVal.getD (v : JVal) (k : String) (dflt : JVal) : Except Unit JVal :=
  match v with
  | .obj fields => .ok ((jfind fields k).getD dflt)
  | _ => .error ()

/-- Python `v.get(k)` (default `None`). -/
def JVal.get (v : JVal) (k : String) : Except Unit JVal :=
  v.getD k .null

/-- Python iteration, modelled on lists only (see the module comment). -/
def asList : JVal → Except Unit (List JVal)
  | .arr l => .ok l
  | _ => .error ()

/-- Python `v / d` on a modelled number; raises (`TypeError`) for any
non-numeric value.  A Python `bool` is an `int`, so it divides.
`Rat.divInt n d` is the rational `n / d` (stated by `Rat.divInt_eq_div`);
it is used directly so the result evaluates by kernel reduction. -/
def pyDiv (v : JVal) (d : ℤ) : Except Unit ℚ :=
  match v with
  | .int n => .ok (Rat.divInt n d)
  | .bool b => .ok (Rat.divInt (if b then 1 else 0) d)
  | _ => .error ()

/-- The whitespace set of Python's `str.strip()` (ASCII part). -/
def pySpace (c : Char) : Bool :=
  c == ' ' || c == '\t' || c == '\n' || c == '\r' || c == '\x0b' || c == '\x0c'

/-- Python `s.strip()`: drop leading and trailing whitespace.  Defined on
the character list so it evaluates by kernel reduction. -/
def pyStrip (s : String) : String :=
  String.mk (((s.data.dropWhile pySpace).reverse.dropWhile pySpace).reverse)

/-- Digit-string accumulator for `strToInt?`. -/
def digitsVal (acc : Nat) : List Char → Option Nat
  | [] => some acc
  | c :: cs => if c.isDigit then digitsVal (acc * 10 + (c.toNat - 48)) cs else none

/-- Python `int(s)` on a string: surrounding whitespace, an optional sign
and a non-empty digit run (digit-group underscores are not modelled; no
input of interest contains them).  `none` models the raised `ValueError`. -/
def strToInt? (s : String) : Option Int :=
  match (pyStrip s).data with
  | [] => none
  | '-' :: cs =>
    match cs with
    | [] => none
    | _ => (digitsVal 0 cs).map (fun n => -(n : ℤ))
  | '+' :: cs =>
    match cs with
    | [] => none
    | _ => (digitsVal 0 cs).map (fun n => (n : ℤ))
  | cs => (digitsVal 0 cs).map (fun n => (n : ℤ))

/-- Python `int(v)`: `none` models the raised exception. -/
def pyInt : JVal → Option Int
  | .int n => some n
  | .bool b => some (if b then 1 else 0)
  | .str s => strToInt? s
  | _ => none

/-- Python `str(v)` as used by the image f-string.  Scalar renderings match
CPython; container renderings are abbreviated (no claim depends on them). -/
def pyStr : JVal → String
  | .null => "None"
  | .bool b => if b then "True" else "False"
  | .int n => toString n
  | .str s => s
  | .arr _ => "[...]"
  | .obj _ => "{...}"

/-- Round `t / d` (with `d > 0`) to the nearest integer, ties to even: the
rounding rule of Python's `round`. -/
def rndHalfEven (t : ℤ) (d : ℕ) : ℤ :=
  let fl := Int.fdiv t d
  let r2 := 2 * (t - fl * d)
  if r2 < d then fl
  else if (d : ℤ) < r2 then fl + 1
  else if fl % 2 = 0 then fl else fl + 1

/-- `round(q, 2)`: round to two decimal places, ties to even, as Python's
`round` does.  `q * 100` is computed on the numerator so the definition
evaluates by kernel reduction (`Rat.mul` is irreducible). -/
def round2 (q : ℚ) : ℚ := Rat.divInt (rndHalfEven (q.num * 100) q.den) 100

/-- One normalized variant (`parse_item`, lines 66-73 of `main.py`). -/
structure VariantRecord where
  variant_group : JVal
  variant_name : JVal
  variant_price_add : ℚ
  variant_inStock : JVal
  variant_isDefault : JVal
  variant_isEnabled : JVal

/-- One normalized dish (`parse_item`, lines 75-88 of `main.py`). -/
structure DishRecord where
  res_id : JVal
  restaurant : JVal
  subzone : JVal
  category : JVal
  dish_name : JVal
  description : JVal
  base_price : ℚ
  final_price : Option ℚ
  flashSale : String
  inStock : Bool
  image : Option String
  variants : List VariantRecord

/-- Truthiness of `final_price and final_price < base_price` (line 54):
`None` and `0.0` are falsy. -/
def flashCond : Option ℚ → ℚ → Bool
  | none, _ => false
  | some q, b => (decide (q ≠ 0)) && (decide (q < b))

/-- The Python `or`-chain `v.get(k1) or v.get(k2) or 0` (lines 52 and 61):
first truthy operand, else the integer `0`. -/
def orGet (v : JVal) (k1 k2 : String) : Except Unit JVal := do
  let v1 ← v.get k1
  if v1.truthy then pure v1
  else do
    let v2 ← v.get k2
    pure (if v2.truthy then v2 else JVal.int 0)

/-- `final_price` (line 53): `round(info.get("finalPrice", 0)/100, 2)` when
`info.get("finalPrice")` is truthy, else `None`. -/
def finalPriceOf (info : JVal) : Except Unit (Option ℚ) := do
  let fcond ← info.get "finalPrice"
  if fcond.truthy then do
    let fv ← info.getD "finalPrice" (JVal.int 0)
    let fq ← pyDiv fv 100
    pure (some (round2 fq))
  else pure none

/-- `category_title or info.get("category", "")` (line 79). -/
def categoryOf (info category_title : JVal) : Except Unit JVal :=
  if category_title.truthy then pure category_title
  else info.getD "category" (JVal.str "")

/-- The inner `for var in vg.get("variations", [])` loop of `parse_item`
(lines 60-73).  The `try/except` covers only `int(raw_price)`. -/
def variationsLoop (group_name : JVal) : List JVal → Except Unit (List VariantRecord)
  | [] => .ok []
  | var :: rest => do
    let rawv ← orGet var "price" "defaultPrice"
    let rp : Int := (pyInt rawv).getD 0
    let nmv ← var.get "name"
    let isv ← var.getD "inStock" JVal.null
    let dfv ← var.getD "default" (JVal.int 0)
    let env ← var.getD "isEnabled" (JVal.bool true)
    let more ← variationsLoop group_name rest
    pure ({ variant_group := group_name, variant_name := nmv,
            variant_price_add := round2 (Rat.divInt rp 1),
            variant_inStock := isv, variant_isDefault := dfv,
            variant_isEnabled := env } :: more)

/-- The outer `for vg in ... variantGroups` loop of `parse_item` (lines 58-73). -/
def variantGroupsLoop : List JVal → Except Unit (List VariantRecord)
  | [] => .ok []
  | vg :: rest => do
    let gname ← vg.get "name"
    let vsv ← vg.getD "variations" (JVal.arr [])
    let vsl ← asList vsv
    let here ← variationsLoop gname vsl
    let more ← variantGroupsLoop rest
    pure (here ++ more)

/-- `parse_item` (lines 44-88 of `main.py`).  An error is an uncaught Python
exception escaping to the caller. -/
def parse_item (info restaurant_name restaurant_id category_title subzone_name : JVal) :
    Except Unit (List DishRecord) :=
  if !info.truthy then .ok []
  else do
    let imageId ← info.get "imageId"
    let imageUrl : Option String := if imageId.truthy then
        some ("https://media-assets.swiggy.com/swiggy/image/upload/" ++ pyStr imageId)
      else none
    let basev ← orGet info "price" "defaultPrice"
    let bq ← pyDiv basev 100
    let base_price := round2 bq
    let final_price ← finalPriceOf info
    let flashSale := if flashCond final_price base_price then "ON" else "OFF"
    let dish_instock ← info.getD "inStock" (JVal.int 0)
    let vv2 ← info.getD "variantsV2" (JVal.obj [])
    let vgv ← vv2.getD "variantGroups" (JVal.arr [])
    let vgl ← asList vgv
    let variants ← variantGroupsLoop vgl
    let category ← categoryOf info category_title
    let dish_name ← info.getD "name" (JVal.str "")
    let descv ← info.getD "description" (JVal.str "")
    pure [{ res_id := restaurant_id,
            restaurant := restaurant_name,
            subzone := if subzone_name.truthy then subzone_name else JVal.str "",
            category := category,
            dish_name := dish_name,
            description := if descv.truthy then descv else JVal.str "",
            base_price := base_price,
            final_price := final_price,
            flashSale := flashSale,
            inStock := dish_instock.truthy,
            image := imageUrl,
            variants := variants }]

example : parse_item (.obj [("name", .str "Burger"), ("price", .int 15000),
    ("finalPrice", .int 12000), ("inStock", .int 1)]) (.str "Test Diner") (.str "1")
    (.str "Mains") (.str "Z")
    = .ok [{ res_id := .str "1", restaurant := .str "Test Diner", subzone := .str "Z",
             category := .str "Mains", dish_name := .str "Burger", description := .str "",
             base_price := 150, final_price := some 120, flashSale := "ON",
             inStock := true, image := none, variants := [] }] := rfl

/-- The restaurant-info scan of `parse_menu_from_data` (lines 99-108) and of
`extract_offers_from_data` (lines 149-157): one card's attempt.  `some`
means the card matched; the `Except` layer is the body of the per-card
`try`. -/
def restInfoOfCard (c : JVal) : Except Unit (Option (JVal × JVal × JVal)) := do
  let c1 ← c.getD "card" (JVal.obj [])
  let c2 ← c1.getD "card" (JVal.obj [])
  let info ← c2.get "info"
  if info.truthy then do
    let nm ← info.get "name"
    if nm.truthy then do
      let idv ← info.get "id"
      let area ← info.get "areaName"
      let sub ← if area.truthy then pure area else do
        let sz ← info.get "subzoneName"
        pure (if sz.truthy then sz else JVal.str "")
      pure (some (nm, idv, sub))
    else pure none
  else pure none

/-- First-match scan for restaurant name, id and subzone; a raising or
non-matching card is skipped (`except: continue`).  Defaults are `None`. -/
def findRestaurant : List JVal → JVal × JVal × JVal
  | [] => (.null, .null, .null)
  | c :: rest =>
    match restInfoOfCard c with
    | .ok (some t) => t
    | _ => findRestaurant rest

/-- One card's attempt in the grouped-cards scan (lines 112-119). -/
def groupedOfCard (c : JVal) : Except Unit JVal := do
  let g1 ← c.getD "groupedCard" (JVal.obj [])
  let g2 ← g1.getD "cardGroupMap" (JVal.obj [])
  let g3 ← g2.getD "REGULAR" (JVal.obj [])
  g3.getD "cards" (JVal.arr [])

/-- First truthy `REGULAR` card group; a raising card is skipped.  The
result may be a truthy non-list, exactly as in the source. -/
def findGrouped : List JVal → JVal
  | [] => .arr []
  | c :: rest =>
    match groupedOfCard c with
    | .ok g => if g.truthy then g else findGrouped rest
    | .error _ => findGrouped rest

/-- `info = itemCard.get("card", {}).get("info", {})` (line 129). -/
def itemFromItemCard (ic : JVal) : Except Unit JVal := do
  let c1 ← ic.getD "card" (JVal.obj [])
  c1.getD "info" (JVal.obj [])

/-- The `for itemCard in item_cards` loop of the categorized branch
(lines 128-130).  The pair is (items accumulated, uncaught error): an error
aborts the loop but keeps the records appended before it. -/
def itemsLoopA (nm idv ct sub : JVal) : List JVal → List DishRecord × Option Unit
  | [] => ([], none)
  | ic :: rest =>
    match (do
        let info ← itemFromItemCard ic
        parse_item info nm idv ct sub) with
    | .error _ => ([], some ())
    | .ok rs =>
      let (more, e) := itemsLoopA nm idv ct sub rest
      (rs ++ more, e)

/-- One category of the categorized branch (lines 125-130). -/
def catStep (nm idv sub : JVal) (cat : JVal) : List DishRecord × Option Unit :=
  match (do
      let t ← cat.get "title"
      let icv ← cat.getD "itemCards" (JVal.arr [])
      let ics ← asList icv
      pure (t, ics)) with
  | .error _ => ([], some ())
  | .ok (t, ics) => itemsLoopA nm idv (if t.truthy then t else JVal.str "") sub ics

/-- The `for cat in categories` loop (lines 125-130). -/
def catsLoop (nm idv sub : JVal) : List JVal → List DishRecord × Option Unit
  | [] => ([], none)
  | cat :: rest =>
    match catStep nm idv sub cat with
    | (rs, some u) => (rs, some u)
    | (rs, none) =>
      let (more, e) := catsLoop nm idv sub rest
      (rs ++ more, e)

/-- The two-way `info` fallback of line 134:
`itemCard.get("card", {}).get("info") or itemCard.get("card", {})
.get("card", {}).get("info") or {}`. -/
def infoFallback (ic : JVal) : Except Unit JVal := do
  let c1 ← ic.getD "card" (JVal.obj [])
  let i1 ← c1.get "info"
  if i1.truthy then pure i1
  else do
    let c2 ← ic.getD "card" (JVal.obj [])
    let c3 ← c2.getD "card" (JVal.obj [])
    let i2 ← c3.get "info"
    pure (if i2.truthy then i2 else JVal.obj [])

/-- The `for itemCard in item_cards` loop of the uncategorized branch
(lines 132-136), including the two-way `info` fallback and the per-item
`cat_title` read. -/
def itemsLoopB (nm idv sub card_obj : JVal) : List JVal → List DishRecord × Option Unit
  | [] => ([], none)
  | ic :: rest =>
    match (do
        let info ← infoFallback ic
        let tv ← card_obj.getD "title" (JVal.str "")
        parse_item info nm idv (if tv.truthy then tv else JVal.str "") sub) with
    | .error _ => ([], some ())
    | .ok rs =>
      let (more, e) := itemsLoopB nm idv sub card_obj rest
      (rs ++ more, e)

/-- One card of the main traversal (lines 121-136). -/
def cardStep (nm idv sub : JVal) (card : JVal) : List DishRecord × Option Unit :=
  match (do
      let c1 ← card.getD "card" (JVal.obj [])
      let card_obj ← c1.getD "card" (JVal.obj [])
      let cats ← card_obj.get "categories"
      pure (card_obj, cats)) with
  | .error _ => ([], some ())
  | .ok (card_obj, cats) =>
    if cats.truthy then
      match asList cats with
      | .error _ => ([], some ())
      | .ok catl => catsLoop nm idv sub catl
    else
      match (do
          let icv ← card_obj.getD "itemCards" (JVal.arr [])
          asList icv) with
      | .error _ => ([], some ())
      | .ok ics => itemsLoopB nm idv sub card_obj ics

/-- The `for card in grouped_cards` loop (lines 121-136).  No per-card
`try` exists here: an error aborts the remaining cards. -/
def cardsLoop (nm idv sub : JVal) : List JVal → List DishRecord × Option Unit
  | [] => ([], none)
  | card :: rest =>
    match cardStep nm idv sub card with
    | (rs, some u) => (rs, some u)
    | (rs, none) =>
      let (more, e) := cardsLoop nm idv sub rest
      (rs ++ more, e)

/-- `parse_menu_from_data` (lines 90-140 of `main.py`).  The enclosing
`try/except Exception: pass` makes the function total: any uncaught error
yields whatever `items` had accumulated. -/
def parse_menu_from_data (data : JVal) : List DishRecord :=
  match (do
      let d ← data.getD "data" (JVal.obj [])
      let cv ← d.getD "cards" (JVal.arr [])
      asList cv) with
  | .error _ => []
  | .ok cards =>
    let r := findRestaurant cards
    match asList (findGrouped cards) with
    | .error _ => []
    | .ok gcards => (cardsLoop r.1 r.2.1 r.2.2 gcards).1

example : parse_menu_from_data (.obj []) = [] := rfl

example : parse_menu_from_data (.obj [("data", .obj [("cards", .arr
    [.obj [("card", .obj [("card", .obj [("info", .obj [("name", .str "Test Diner"),
       ("id", .str "9"), ("areaName", .str "Z")])])])],
     .obj [("groupedCard", .obj [("cardGroupMap", .obj [("REGULAR", .obj [("cards", .arr
       [.obj [("card", .obj [("card", .obj [("title", .str "Mains"), ("itemCards", .arr
         [.obj [("card", .obj [("info", .obj [("name", .str "Burger"),
            ("price", .int 15000)])])]])])])]])])])])]])])])
    = [{ res_id := .str "9", restaurant := .str "Test Diner", subzone := .str "Z",
         category := .str "Mains", dish_name := .str "Burger", description := .str "",
         base_price := 150, final_price := none, flashSale := "OFF",
         inStock := false, image := none, variants := [] }] := rfl

/-- One normalized offer (`extract_offers_from_data`, lines 176-185). -/
structure OfferRecord where
  res_id : JVal
  restaurant : JVal
  subzone : JVal
  title : JVal
  code : JVal
  description : JVal
  discount : JVal
  image : JVal

/-- Whether the first list starts with the second (character match). -/
def startsWithChars : List Char → List Char → Bool
  | _, [] => true
  | [], _ :: _ => false
  | c :: cs, p :: ps => c == p && startsWithChars cs ps

/-- Substring containment on character lists (Python `k in s` on strings). -/
def hasSub (s pat : List Char) : Bool :=
  match s with
  | [] => pat.isEmpty
  | _ :: rest => startsWithChars s pat || hasSub rest pat

/-- Python `k in v` (`__contains__`): key test on a dict, substring test on
a string, membership on a list; raises on other values.  List membership
compares against the string `k` (the only comparison the source can reach). -/
def pyContains (v : JVal) (k : String) : Except Unit Bool :=
  match v with
  | .obj fields => .ok (fields.any (fun p => p.1 == k))
  | .str s => .ok (hasSub s.data k.data)
  | .arr l => .ok (l.any (fun e => match e with | .str t => t == k | _ => false))
  | _ => .error ()

/-- Python `v[k]` (`__getitem__`): raises `KeyError` on a dict without the
key and `TypeError` on any non-dict. -/
def pyIndex (v : JVal) (k : String) : Except Unit JVal :=
  match v with
  | .obj fields =>
    match jfind fields k with
    | some w => .ok w
    | none => .error ()
  | _ => .error ()

/-- The `for nested in card_data["cards"]` collection (lines 169-172). -/
def nestedOffers : List JVal → Except Unit (List JVal)
  | [] => .ok []
  | nested :: rest => do
    let n1 ← nested.getD "card" (JVal.obj [])
    let nc ← n1.getD "card" (JVal.obj [])
    let hasO ← pyContains nc "offers"
    let here ← if hasO then do
        let ov ← nc.getD "offers" (JVal.arr [])
        asList ov
      else pure []
    let more ← nestedOffers rest
    pure (here ++ more)

/-- `offers_candidates` for one card (lines 161-172): the three
offer-bearing shapes, all probed, concatenated in source order. -/
def offerCandidates (card : JVal) : Except Unit (List JVal) := do
  let c1 ← card.getD "card" (JVal.obj [])
  let card_data ← c1.getD "card" (JVal.obj [])
  let hasGrid ← pyContains card_data "gridElements"
  let cand1 ← if hasGrid then do
      let ge ← pyIndex card_data "gridElements"
      let iws ← ge.getD "infoWithStyle" (JVal.obj [])
      let ov ← iws.getD "offers" (JVal.arr [])
      asList ov
    else pure []
  let hasOffers ← pyContains card_data "offers"
  let cand2 ← if hasOffers then do
      let ov ← card_data.getD "offers" (JVal.arr [])
      asList ov
    else pure []
  let hasCards ← pyContains card_data "cards"
  let cand3 ← if hasCards then do
      let cs ← pyIndex card_data "cards"
      let csl ← asList cs
      nestedOffers csl
    else pure []
  pure (cand1 ++ cand2 ++ cand3)

/-- One raw offer to one `OfferRecord` (lines 174-185). -/
def offerOfCandidate (nm sub o : JVal) : Except Unit OfferRecord := do
  let info ← o.getD "info" (JVal.obj [])
  let title ← info.get "header"
  let code ← info.get "couponCode"
  let desc ← info.get "description"
  let disc ← info.get "discountType"
  let img ← info.get "offerLogo"
  pure { res_id := nm,
         restaurant := if nm.truthy then nm else JVal.str "",
         subzone := if sub.truthy then sub else JVal.str "",
         title := if title.truthy then title else JVal.str "Offer",
         code := if code.truthy then code else JVal.str "",
         description := if desc.truthy then desc else JVal.str "",
         discount := if disc.truthy then disc else JVal.str "",
         image := if img.truthy then img
           else JVal.str "https://via.placeholder.com/120?text=No+Logo" }

/-- The `for o in offers_candidates` append loop (lines 174-185): an error
keeps the records appended before it (they are already on `offers_list`). -/
def offersAppendLoop (nm sub : JVal) : List JVal → List OfferRecord × Option Unit
  | [] => ([], none)
  | o :: rest =>
    match offerOfCandidate nm sub o with
    | .error _ => ([], some ())
    | .ok r =>
      let (more, e) := offersAppendLoop nm sub rest
      (r :: more, e)

/-- One card of the offer scan (lines 159-187): the per-card `try/except
Exception: continue` swallows the error and keeps the appended records. -/
def offersOfCard (nm sub card : JVal) : List OfferRecord :=
  match offerCandidates card with
  | .error _ => []
  | .ok cands => (offersAppendLoop nm sub cands).1

/-- The `for card in cards` loop of the offer scan (lines 159-187). -/
def offersCardsLoop (nm sub : JVal) : List JVal → List OfferRecord
  | [] => []
  | card :: rest => offersOfCard nm sub card ++ offersCardsLoop nm sub rest

/-- `extract_offers_from_data` (lines 142-190 of `main.py`).  The offer
scan re-derives the restaurant context with the same first-match scan as
the menu parser (its `id` read is simply unused). -/
def extract_offers_from_data (data : JVal) : List OfferRecord :=
  match (do
      let d ← data.getD "data" (JVal.obj [])
      let cv ← d.getD "cards" (JVal.arr [])
      asList cv) with
  | .error _ => []
  | .ok cards =>
    let r := findRestaurant cards
    offersCardsLoop r.1 r.2.2 cards

example : extract_offers_from_data (.obj []) = [] := rfl

example : extract_offers_from_data (.obj [("data", .obj [("cards", .arr
    [.obj [("card", .obj [("card", .obj [("offers", .arr
      [.obj [("info", .obj [("header", .str "50% OFF"), ("couponCode", .str "HALF")])]])])])]])])])
    = [{ res_id := .null, restaurant := .str "", subzone := .str "",
         title := .str "50% OFF", code := .str "HALF", description := .str "",
         discount := .str "",
         image := .str "https://via.placeholder.com/120?text=No+Logo" }] := rfl

/-- A `DishRecord` after `item.pop("variants", [])`: the same dish with the
variants entry removed. -/
structure DishStripped where
  res_id : JVal
  restaurant : JVal
  subzone : JVal
  category : JVal
  dish_name : JVal
  description : JVal
  base_price : ℚ
  final_price : Option ℚ
  flashSale : String
  inStock : Bool
  image : Option String

/-- The effect of `item.pop("variants", [])` on one input record. -/
def eraseVariants (d : DishRecord) : DishStripped :=
  { res_id := d.res_id, restaurant := d.restaurant, subzone := d.subzone,
    category := d.category, dish_name := d.dish_name, description := d.description,
    base_price := d.base_price, final_price := d.final_price,
    flashSale := d.flashSale, inStock := d.inStock, image := d.image }

/-- One flattened row (lines 209-228): the dish fields of `item.copy()`
plus the five inlined variant fields (`variant_isEnabled` is dropped). -/
structure FlatRow where
  res_id : JVal
  restaurant : JVal
  subzone : JVal
  category : JVal
  dish_name : JVal
  description : JVal
  base_price : ℚ
  final_price : Option ℚ
  flashSale : String
  inStock : Bool
  image : Option String
  variant_group : JVal
  variant_name : JVal
  variant_price_add : Option ℚ
  variant_inStock : JVal
  variant_isDefault : JVal

/-- `row = item.copy(); row.update({...})` for one variant (lines 209-217). -/
def rowOfVariant (d : DishRecord) (v : VariantRecord) : FlatRow :=
  { res_id := d.res_id, restaurant := d.restaurant, subzone := d.subzone,
    category := d.category, dish_name := d.dish_name, description := d.description,
    base_price := d.base_price, final_price := d.final_price,
    flashSale := d.flashSale, inStock := d.inStock, image := d.image,
    variant_group := v.variant_group, variant_name := v.variant_name,
    variant_price_add := some v.variant_price_add,
    variant_inStock := v.variant_inStock, variant_isDefault := v.variant_isDefault }

/-- The variantless row (lines 219-228): the five variant fields are `None`. -/
def rowEmpty (d : DishRecord) : FlatRow :=
  { res_id := d.res_id, restaurant := d.restaurant, subzone := d.subzone,
    category := d.category, dish_name := d.dish_name, description := d.description,
    base_price := d.base_price, final_price := d.final_price,
    flashSale := d.flashSale, inStock := d.inStock, image := d.image,
    variant_group := .null, variant_name := .null, variant_price_add := none,
    variant_inStock := .null, variant_isDefault := .null }

/-- `flatten_items_with_variants` (lines 202-229 of `main.py`).  The first
component is the returned `flat_rows`; the second is the post-call state of
the mutated input list (`item.pop("variants", [])` on every record). -/
def flatten_items_with_variants : List DishRecord → List FlatRow × List DishStripped
  | [] => ([], [])
  | d :: rest =>
    let rows := if !d.variants.isEmpty then d.variants.map (rowOfVariant d)
      else [rowEmpty d]
    let (more, post) := flatten_items_with_variants rest
    (rows ++ more, eraseVariants d :: post)

/-- One offer row of the reconciliation step: the two compared columns plus
the remaining columns, carried opaquely. -/
structure OfferRow where
  title : String
  code : String
  extra : List (String × String)

/-- The column normalization (lines 315-316 and 334-335):
`.astype(str).str.strip()` on `title` and `code`. -/
def stripRow (r : OfferRow) : OfferRow :=
  { r with title := pyStrip r.title, code := pyStrip r.code }

/-- The reconciliation core of `compare_offers` (lines 314-343 of
`main.py`), with the reference rows and the scraped rows as inputs: the
reference columns are normalized, an empty scraped collection is the
distinguished "No offers scraped" error, otherwise the scraped columns are
normalized, a boolean `match` marker is computed per scraped row by an
existential scan of the reference rows, and the rows whose marker is false
are returned with the marker column dropped. -/
def compare_offers (ref scraped : List OfferRow) : Except String (List OfferRow) :=
  if scraped.isEmpty then .error "No offers scraped"
  else
    .ok (((((scraped.map stripRow).map (fun r =>
      (r, (ref.map stripRow).any
        (fun q => q.title == r.title && q.code == r.code)))).filter
          (fun p => !p.2)).map (fun p => p.1)))

example : compare_offers [⟨" 50% OFF ", "HALF", []⟩] [⟨"50% OFF", " HALF ", []⟩]
    = .ok [] := rfl

example : compare_offers [] [⟨"A", "B", []⟩] = .ok [⟨"A", "B", []⟩] := rfl

example : compare_offers [⟨"A", "B", []⟩] [] = .error "No offers scraped" := rfl

/-- Destructor for a successful `Except` bind. -/
theorem exBind_ok {α β : Type} {x : Except Unit α} {f : α → Except Unit β} {b : β} :
    (x >>= f) = .ok b ↔ ∃ a, x = .ok a ∧ f a = .ok b := by
  cases x <;> simp [Bind.bind, Except.bind]

/-- A rational that is an integer multiple of `1 / 100` is already rounded:
`round2` fixes it. -/
theorem round2_eq_self {q : ℚ} {m : ℤ} (h : q * 100 = (m : ℚ)) : round2 q = q := by
  have hden : (q.den : ℤ) ≠ 0 := Int.natCast_ne_zero.mpr q.den_nz
  have hdpos : (0 : ℤ) < (q.den : ℤ) := Int.natCast_pos.mpr q.pos
  have hnum : q.num * 100 = m * (q.den : ℤ) := by
    have hdq : ((q.den : ℚ)) ≠ 0 := by
      exact_mod_cast hden
    have hq : ((q.num : ℚ)) / (q.den : ℚ) = (m : ℚ) / 100 := by
      rw [Rat.num_div_den q, eq_div_iff (by norm_num : (100 : ℚ) ≠ 0)]
      exact h
    rw [div_eq_div_iff hdq (by norm_num : (100 : ℚ) ≠ 0)] at hq
    exact_mod_cast hq
  have hfl : rndHalfEven (q.num * 100) q.den = m := by
    unfold rndHalfEven
    rw [hnum, Int.mul_fdiv_cancel _ hden]
    simp [sub_self, hdpos]
  rw [round2, hfl, Rat.divInt_eq_div]
  push_cast
  rw [div_eq_iff (by norm_num : (100 : ℚ) ≠ 0)]
  exact h.symm

/-- `pyDiv v 100` yields an integer number of hundredths; `round2` fixes
the result, and a truthy numerator makes it nonzero. -/
theorem pyDiv100_spec {v : JVal} {q : ℚ} (h : pyDiv v 100 = .ok q) :
    round2 q = q ∧ (v.truthy = true → q ≠ 0) := by
  cases v with
  | int n =>
    have hq : q = Rat.divInt n 100 := by
      simpa [pyDiv] using h.symm
    subst hq
    constructor
    · refine round2_eq_self (m := n) ?_
      rw [Rat.divInt_eq_div]
      field_simp
    · intro ht
      have hn : n ≠ 0 := by simpa [JVal.truthy] using ht
      rw [Rat.divInt_eq_div]
      exact div_ne_zero (Int.cast_ne_zero.mpr hn) (by norm_num)
  | bool b =>
    have hq : q = Rat.divInt (if b then 1 else 0) 100 := by
      simpa [pyDiv] using h.symm
    subst hq
    constructor
    · refine round2_eq_self (m := if b then 1 else 0) ?_
      rw [Rat.divInt_eq_div]
      field_simp
    · intro ht
      have hb : b = true := by simpa [JVal.truthy] using ht
      subst hb
      rw [Rat.divInt_eq_div]
      norm_num
  | null => simp [pyDiv] at h
  | str s => simp [pyDiv] at h
  | arr l => simp [pyDiv] at h
  | obj l => simp [pyDiv] at h

/-- `round2` fixes an integer-valued rational written as `n / 1`. -/
theorem round2_divInt_one (n : ℤ) : round2 (Rat.divInt n 1) = (n : ℚ) := by
  have h : Rat.divInt n 1 * 100 = ((n * 100 : ℤ) : ℚ) := by
    rw [Rat.divInt_eq_div]
    push_cast
    ring
  rw [round2_eq_self h, Rat.divInt_eq_div]
  norm_num

/-- A present final price is nonzero and already rounded: `finalPriceOf`
only produces `some` from a truthy (hence nonzero) `finalPrice` entry. -/
theorem finalPriceOf_some {info : JVal} {q : ℚ} (h : finalPriceOf info = .ok (some q)) :
    q ≠ 0 := by
  cases info with
  | obj fields =>
    simp only [finalPriceOf, JVal.get, JVal.getD, exBind_ok, Except.ok.injEq,
      exists_eq_left', Pure.pure, Except.pure] at h
    by_cases hfc : ((jfind fields "finalPrice").getD JVal.null).truthy
    · rw [if_pos hfc] at h
      simp only [exBind_ok, Except.ok.injEq, exists_eq_left', Pure.pure, Except.pure,
        Option.some.injEq] at h
      obtain ⟨fq, hfq, heq⟩ := h
      cases hj : jfind fields "finalPrice" with
      | none => rw [hj] at hfc; simp [JVal.truthy] at hfc
      | some w =>
        rw [hj] at hfc hfq
        simp only [Option.getD_some] at hfc hfq
        obtain ⟨hrd, hnz⟩ := pyDiv100_spec hfq
        rw [← heq, hrd]
        exact hnz hfc
    · rw [if_neg hfc] at h
      simp only [Pure.pure, Except.pure, Except.ok.injEq] at h
      cases h
  | null => simp [finalPriceOf, JVal.get, JVal.getD, Bind.bind, Except.bind] at h
  | bool bb => simp [finalPriceOf, JVal.get, JVal.getD, Bind.bind, Except.bind] at h
  | int n => simp [finalPriceOf, JVal.get, JVal.getD, Bind.bind, Except.bind] at h
  | str ss => simp [finalPriceOf, JVal.get, JVal.getD, Bind.bind, Except.bind] at h
  | arr l => simp [finalPriceOf, JVal.get, JVal.getD, Bind.bind, Except.bind] at h

/-- Everything `parse_item` guarantees about a record it emits: the
flash-sale field is the conditional on the record's own prices, a present
final price is nonzero, and the in-stock flag is the truthiness of the raw
`inStock` entry (default `0`). -/
theorem parse_item_mem_spec {info a b c d : JVal} {rs : List DishRecord} {r : DishRecord}
    (h : parse_item info a b c d = .ok rs) (hr : r ∈ rs) :
    (r.flashSale = if flashCond r.final_price r.base_price then "ON" else "OFF") ∧
    (∀ q, r.final_price = some q → q ≠ 0) ∧
    (∀ fields, info = JVal.obj fields →
      r.inStock = ((jfind fields "inStock").getD (JVal.int 0)).truthy) := by
  by_cases hi : info.truthy
  · cases info with
    | null => simp [JVal.truthy] at hi
    | bool bb =>
      simp only [parse_item, hi, Bool.not_true, Bool.false_eq_true, if_false,
        JVal.get, JVal.getD, Bind.bind, Except.bind] at h
      exact Except.noConfusion h
    | int n =>
      simp only [parse_item, hi, Bool.not_true, Bool.false_eq_true, if_false,
        JVal.get, JVal.getD, Bind.bind, Except.bind] at h
      exact Except.noConfusion h
    | str s =>
      simp only [parse_item, hi, Bool.not_true, Bool.false_eq_true, if_false,
        JVal.get, JVal.getD, Bind.bind, Except.bind] at h
      exact Except.noConfusion h
    | arr l =>
      simp only [parse_item, hi, Bool.not_true, Bool.false_eq_true, if_false,
        JVal.get, JVal.getD, Bind.bind, Except.bind] at h
      exact Except.noConfusion h
    | obj fields =>
      simp only [parse_item, hi, Bool.not_true, Bool.false_eq_true, if_false,
        JVal.get, JVal.getD, exBind_ok, Except.ok.injEq, exists_eq_left',
        Pure.pure, Except.pure] at h
      obtain ⟨basev, hbase, bq, hbq, fp, hfp, vgv, hvgv, vgl, hvgl,
        variants, hvars, category, hcat, hres⟩ := h
      subst hres
      rw [List.mem_singleton] at hr
      subst hr
      refine ⟨rfl, ?_, ?_⟩
      · intro q hq
        simp only [Option.some.injEq] at hq
        exact finalPriceOf_some (hq ▸ hfp)
      · intro fields2 hf2
        cases hf2
        rfl
  · have hrs : rs = [] := by
      simp only [parse_item, hi, Bool.not_false, if_true, Except.ok.injEq] at h
      exact h.symm
    subst hrs
    cases hr

/-- Records of the categorized item loop come from `parse_item`. -/
theorem mem_itemsLoopA {nm idv ct sub : JVal} {l : List JVal} {r : DishRecord}
    (h : r ∈ (itemsLoopA nm idv ct sub l).1) :
    ∃ info rs, parse_item info nm idv ct sub = .ok rs ∧ r ∈ rs := by
  induction l with
  | nil => simp [itemsLoopA] at h
  | cons ic rest ih =>
    rw [itemsLoopA] at h
    cases hstep : (do
        let info ← itemFromItemCard ic
        parse_item info nm idv ct sub : Except Unit (List DishRecord)) with
    | error e =>
      rw [hstep] at h
      simp at h
    | ok rs0 =>
      rw [hstep] at h
      rcases hrec : itemsLoopA nm idv ct sub rest with ⟨more, e⟩
      rw [hrec] at h
      simp only [List.mem_append] at h
      cases h with
      | inl hl =>
        rw [exBind_ok] at hstep
        obtain ⟨info, _, hpi⟩ := hstep
        exact ⟨info, rs0, hpi, hl⟩
      | inr hrr =>
        have := ih (by rw [hrec]; exact hrr)
        exact this

/-- Records of one category step come from `parse_item`. -/
theorem mem_catStep {nm idv sub cat : JVal} {r : DishRecord}
    (h : r ∈ (catStep nm idv sub cat).1) :
    ∃ info ct rs, parse_item info nm idv ct sub = .ok rs ∧ r ∈ rs := by
  rw [catStep] at h
  cases hstep : (do
      let t ← cat.get "title"
      let icv ← cat.getD "itemCards" (JVal.arr [])
      let ics ← asList icv
      pure (t, ics) : Except Unit (JVal × List JVal)) with
  | error e =>
    rw [hstep] at h
    simp at h
  | ok ti =>
    rw [hstep] at h
    obtain ⟨info, rs, hpi, hm⟩ := mem_itemsLoopA h
    exact ⟨info, _, rs, hpi, hm⟩

/-- Records of the categories loop come from `parse_item`. -/
theorem mem_catsLoop {nm idv sub : JVal} {l : List JVal} {r : DishRecord}
    (h : r ∈ (catsLoop nm idv sub l).1) :
    ∃ info ct rs, parse_item info nm idv ct sub = .ok rs ∧ r ∈ rs := by
  induction l with
  | nil => simp [catsLoop] at h
  | cons cat rest ih =>
    rw [catsLoop] at h
    rcases hstep : catStep nm idv sub cat with ⟨rs0, e0⟩
    rw [hstep] at h
    cases e0 with
    | some u =>
      simp only at h
      exact mem_catStep (by rw [hstep]; exact h)
    | none =>
      rcases hrec : catsLoop nm idv sub rest with ⟨more, e⟩
      rw [hrec] at h
      simp only [List.mem_append] at h
      cases h with
      | inl hl => exact mem_catStep (by rw [hstep]; exact hl)
      | inr hrr => exact ih (by rw [hrec]; exact hrr)

/-- Records of the uncategorized item loop come from `parse_item`. -/
theorem mem_itemsLoopB {nm idv sub cobj : JVal} {l : List JVal} {r : DishRecord}
    (h : r ∈ (itemsLoopB nm idv sub cobj l).1) :
    ∃ info ct rs, parse_item info nm idv ct sub = .ok rs ∧ r ∈ rs := by
  induction l with
  | nil => simp [itemsLoopB] at h
  | cons ic rest ih =>
    rw [itemsLoopB] at h
    cases hstep : (do
        let info ← infoFallback ic
        let tv ← cobj.getD "title" (JVal.str "")
        parse_item info nm idv (if tv.truthy then tv else JVal.str "") sub :
        Except Unit (List DishRecord)) with
    | error e =>
      rw [hstep] at h
      simp at h
    | ok rs0 =>
      rw [hstep] at h
      rcases hrec : itemsLoopB nm idv sub cobj rest with ⟨more, e⟩
      rw [hrec] at h
      simp only [List.mem_append] at h
      cases h with
      | inl hl =>
        simp only [exBind_ok] at hstep
        obtain ⟨info, _, tv, _, hpi⟩ := hstep
        exact ⟨info, _, rs0, hpi, hl⟩
      | inr hrr => exact ih (by rw [hrec]; exact hrr)

/-- Records of one card step come from `parse_item`. -/
theorem mem_cardStep {nm idv sub card : JVal} {r : DishRecord}
    (h : r ∈ (cardStep nm idv sub card).1) :
    ∃ info ct rs, parse_item info nm idv ct sub = .ok rs ∧ r ∈ rs := by
  rw [cardStep] at h
  split at h
  · simp at h
  · split at h
    · split at h
      · simp at h
      · exact mem_catsLoop h
    · split at h
      · simp at h
      · exact mem_itemsLoopB h

/-- Records of the main card loop come from `parse_item`. -/
theorem mem_cardsLoop {nm idv sub : JVal} {l : List JVal} {r : DishRecord}
    (h : r ∈ (cardsLoop nm idv sub l).1) :
    ∃ info ct rs, parse_item info nm idv ct sub = .ok rs ∧ r ∈ rs := by
  induction l with
  | nil => simp [cardsLoop] at h
  | cons card rest ih =>
    rw [cardsLoop] at h
    rcases hstep : cardStep nm idv sub card with ⟨rs0, e0⟩
    rw [hstep] at h
    cases e0 with
    | some u =>
      simp only at h
      exact mem_cardStep (by rw [hstep]; exact h)
    | none =>
      rcases hrec : cardsLoop nm idv sub rest with ⟨more, e⟩
      rw [hrec] at h
      simp only [List.mem_append] at h
      cases h with
      | inl hl => exact mem_cardStep (by rw [hstep]; exact hl)
      | inr hrr => exact ih (by rw [hrec]; exact hrr)

/-- Every record the menu parser returns was emitted by `parse_item`. -/
theorem mem_parse_menu {data : JVal} {r : DishRecord}
    (h : r ∈ parse_menu_from_data data) :
    ∃ info nm idv ct sub rs, parse_item info nm idv ct sub = .ok rs ∧ r ∈ rs := by
  rw [parse_menu_from_data] at h
  split at h
  · simp at h
  · split at h
    · simp at h
    · obtain ⟨info, ct, rs, hpi, hm⟩ := mem_cardsLoop h
      exact ⟨info, _, _, ct, _, rs, hpi, hm⟩

/-- C1: for every DishRecord produced by parsing (`parse_item` /
`parse_menu_from_data`), the flash-sale flag is `"ON"` iff the final price
is present (not `None`) and strictly less than the base price. -/
theorem flash_sale_invariant :
    (∀ info a b c d rs r, parse_item info a b c d = Except.ok rs → r ∈ rs →
      (r.flashSale = "ON" ↔ ∃ q, r.final_price = some q ∧ q < r.base_price)) ∧
    (∀ doc r, r ∈ parse_menu_from_data doc →
      (r.flashSale = "ON" ↔ ∃ q, r.final_price = some q ∧ q < r.base_price)) := by
  have key : ∀ (r : DishRecord),
      (r.flashSale = if flashCond r.final_price r.base_price then "ON" else "OFF") →
      (∀ q, r.final_price = some q → q ≠ 0) →
      (r.flashSale = "ON" ↔ ∃ q, r.final_price = some q ∧ q < r.base_price) := by
    intro r h1 h2
    have hOFF : ("OFF" : String) ≠ "ON" := by decide
    rw [h1]
    cases hfp : r.final_price with
    | none => simp [flashCond, hOFF]
    | some q =>
      have hq := h2 q hfp
      have hcond : flashCond (some q) r.base_price = decide (q < r.base_price) := by
        simp [flashCond, hq]
      rw [hcond]
      by_cases hlt : q < r.base_price
      · simp [hlt]
      · simp [hlt, hOFF]
  refine ⟨?_, ?_⟩
  · intro info a b c d rs r hok hm
    obtain ⟨h1, h2, _⟩ := parse_item_mem_spec hok hm
    exact key r h1 h2
  · intro doc r hm
    obtain ⟨info, nm, idv, ct, sub, rs, hok, hmm⟩ := mem_parse_menu hm
    obtain ⟨h1, h2, _⟩ := parse_item_mem_spec hok hmm
    exact key r h1 h2

/-- The one-dish document used to exercise the theorems on a concrete input. -/
def wDoc1 : JVal := .obj [("data", .obj [("cards", .arr
    [.obj [("card", .obj [("card", .obj [("info", .obj [("name", .str "Test Diner"),
       ("id", .str "9"), ("areaName", .str "Z")])])])],
     .obj [("groupedCard", .obj [("cardGroupMap", .obj [("REGULAR", .obj [("cards", .arr
       [.obj [("card", .obj [("card", .obj [("title", .str "Mains"), ("itemCards", .arr
         [.obj [("card", .obj [("info", .obj [("name", .str "Burger"),
            ("price", .int 15000), ("finalPrice", .int 12000),
            ("inStock", .int 1)])])]])])])]])])])])]])])]

/-- The record `parse_menu_from_data wDoc1` yields. -/
def wRec1 : DishRecord :=
  { res_id := .str "9", restaurant := .str "Test Diner", subzone := .str "Z",
    category := .str "Mains", dish_name := .str "Burger", description := .str "",
    base_price := 150, final_price := some 120, flashSale := "ON",
    inStock := true, image := none, variants := [] }

theorem flash_sale_invariant_witness :
    wRec1.flashSale = "ON" ↔ ∃ q, wRec1.final_price = some q ∧ q < wRec1.base_price :=
  flash_sale_invariant.2 wDoc1 wRec1 (List.Mem.head _)

/-- C2: both parsers are total functions of the document (the enclosing
`try/except` blocks swallow every traversal error), and an empty or
malformed document yields the empty record list: the empty mapping, an
empty `data` mapping, a non-mapping document, a non-mapping at `data`, and
a non-list at `cards` all produce zero items and zero offers. -/
theorem parsers_total_on_malformed :
    parse_menu_from_data (JVal.obj []) = [] ∧
    extract_offers_from_data (JVal.obj []) = [] ∧
    parse_menu_from_data (JVal.obj [("data", JVal.obj [])]) = [] ∧
    extract_offers_from_data (JVal.obj [("data", JVal.obj [])]) = [] ∧
    (∀ d : JVal, (∀ fields, d ≠ JVal.obj fields) →
      parse_menu_from_data d = [] ∧ extract_offers_from_data d = []) ∧
    (∀ v : JVal, (∀ fields, v ≠ JVal.obj fields) →
      parse_menu_from_data (JVal.obj [("data", v)]) = [] ∧
      extract_offers_from_data (JVal.obj [("data", v)]) = []) ∧
    (∀ v : JVal, (∀ l, v ≠ JVal.arr l) →
      parse_menu_from_data (JVal.obj [("data", JVal.obj [("cards", v)])]) = [] ∧
      extract_offers_from_data (JVal.obj [("data", JVal.obj [("cards", v)])]) = []) := by
  refine ⟨rfl, rfl, rfl, rfl, ?_, ?_, ?_⟩
  · intro d hd
    cases d with
    | obj fields => exact absurd rfl (hd fields)
    | null => exact ⟨rfl, rfl⟩
    | bool b => exact ⟨rfl, rfl⟩
    | int n => exact ⟨rfl, rfl⟩
    | str s => exact ⟨rfl, rfl⟩
    | arr l => exact ⟨rfl, rfl⟩
  · intro v hv
    cases v with
    | obj fields => exact absurd rfl (hv fields)
    | null => exact ⟨rfl, rfl⟩
    | bool b => exact ⟨rfl, rfl⟩
    | int n => exact ⟨rfl, rfl⟩
    | str s => exact ⟨rfl, rfl⟩
    | arr l => exact ⟨rfl, rfl⟩
  · intro v hv
    cases v with
    | arr l => exact absurd rfl (hv l)
    | null => exact ⟨rfl, rfl⟩
    | bool b => exact ⟨rfl, rfl⟩
    | int n => exact ⟨rfl, rfl⟩
    | str s => exact ⟨rfl, rfl⟩
    | obj fields => exact ⟨rfl, rfl⟩
  
theorem parsers_total_on_malformed_witness :
    (parse_menu_from_data (JVal.int 7) = [] ∧ extract_offers_from_data (JVal.int 7) = []) ∧
    (parse_menu_from_data (JVal.obj [("data", JVal.str "x")]) = [] ∧
      extract_offers_from_data (JVal.obj [("data", JVal.str "x")]) = []) ∧
    (parse_menu_from_data (JVal.obj [("data", JVal.obj [("cards", JVal.int 3)])]) = [] ∧
      extract_offers_from_data (JVal.obj [("data", JVal.obj [("cards", JVal.int 3)])]) = []) :=
  ⟨parsers_total_on_malformed.2.2.2.2.1 (JVal.int 7) (fun _ h => JVal.noConfusion h),
   parsers_total_on_malformed.2.2.2.2.2.1 (JVal.str "x") (fun _ h => JVal.noConfusion h),
   parsers_total_on_malformed.2.2.2.2.2.2 (JVal.obj [("cards", JVal.int 3)])
     (fun _ h => JVal.noConfusion h)⟩

/-- C5: the number of flattened rows is the sum of `max 1 (variant count)`
over the input; a dish with variants yields one row per variant and a
variantless dish yields exactly one row whose five variant fields are
absent (`None`). -/
theorem flatten_count_invariant :
    (∀ items : List DishRecord,
      ((flatten_items_with_variants items).1).length
        = (items.map (fun d => max 1 d.variants.length)).sum) ∧
    (∀ d : DishRecord, d.variants ≠ [] →
      (flatten_items_with_variants [d]).1 = d.variants.map (rowOfVariant d)) ∧
    (∀ d : DishRecord, d.variants = [] →
      (flatten_items_with_variants [d]).1 = [rowEmpty d] ∧
      (rowEmpty d).variant_group = JVal.null ∧ (rowEmpty d).variant_name = JVal.null ∧
      (rowEmpty d).variant_price_add = none ∧ (rowEmpty d).variant_inStock = JVal.null ∧
      (rowEmpty d).variant_isDefault = JVal.null) := by
  refine ⟨?_, ?_, ?_⟩
  · intro items
    induction items with
    | nil => rfl
    | cons d rest ih =>
      rw [flatten_items_with_variants]
      rcases hrec : flatten_items_with_variants rest with ⟨more, post⟩
      rw [hrec] at ih
      simp only [hrec, List.map_cons, List.sum_cons, List.length_append]
      rw [ih]
      by_cases hv : d.variants.isEmpty
      · rw [List.isEmpty_iff] at hv
        simp [hv]
      · simp only [hv, Bool.not_false, if_true, List.length_map]
        have hne : d.variants.length ≠ 0 := by
          rw [List.isEmpty_iff] at hv
          simpa [List.length_eq_zero] using hv
        omega
  · intro d hd
    have hv : d.variants.isEmpty = false := by
      simpa [List.isEmpty_iff] using hd
    rw [flatten_items_with_variants, flatten_items_with_variants]
    simp [hv]
  · intro d hd
    have hv : d.variants.isEmpty = true := by simp [hd]
    rw [flatten_items_with_variants, flatten_items_with_variants]
    exact ⟨by simp [hv], rfl, rfl, rfl, rfl, rfl⟩

/-- A concrete two-variant dish for the flattening witnesses. -/
def wVar1 : VariantRecord :=
  { variant_group := .str "Size", variant_name := .str "L",
    variant_price_add := 5000, variant_inStock := .int 1,
    variant_isDefault := .int 0, variant_isEnabled := .bool true }

/-- A concrete dish carrying `wVar1` twice, for the flattening witnesses. -/
def wDish : DishRecord :=
  { res_id := .str "9", restaurant := .str "R", subzone := .str "Z",
    category := .str "Mains", dish_name := .str "Pizza", description := .str "",
    base_price := 150, final_price := none, flashSale := "OFF",
    inStock := true, image := none, variants := [wVar1, wVar1] }

/-- A concrete variantless dish for the flattening witnesses. -/
def wDishNoVar : DishRecord :=
  { res_id := .str "9", restaurant := .str "R", subzone := .str "Z",
    category := .str "Mains", dish_name := .str "Soup", description := .str "",
    base_price := 90, final_price := none, flashSale := "OFF",
    inStock := true, image := none, variants := [] }

theorem flatten_count_invariant_witness :
    ((flatten_items_with_variants [wDish]).1 = wDish.variants.map (rowOfVariant wDish)) ∧
    ((flatten_items_with_variants [wDishNoVar]).1 = [rowEmpty wDishNoVar] ∧
      (rowEmpty wDishNoVar).variant_group = JVal.null ∧
      (rowEmpty wDishNoVar).variant_name = JVal.null ∧
      (rowEmpty wDishNoVar).variant_price_add = none ∧
      (rowEmpty wDishNoVar).variant_inStock = JVal.null ∧
      (rowEmpty wDishNoVar).variant_isDefault = JVal.null) :=
  ⟨flatten_count_invariant.2.1 wDish (fun h => List.noConfusion h),
   flatten_count_invariant.2.2 wDishNoVar rfl⟩

/-- C8: reconciliation on an empty scraped collection returns the
distinguished "No offers scraped" error, which is a different value from a
successful reconciliation with zero mismatches (`Except.ok []`). -/
theorem empty_scraped_sentinel :
    (∀ ref : List OfferRow, compare_offers ref [] = Except.error "No offers scraped") ∧
    (∀ ms : List OfferRow,
      (Except.error "No offers scraped" : Except String (List OfferRow)) ≠ Except.ok ms) :=
  ⟨fun _ => rfl, fun _ h => Except.noConfusion h⟩

/-- C9: flattening strips the variant list from every input record (the
post-call state of the input is `eraseVariants` of each record) and leaves
every other field of every input record unchanged. -/
theorem flatten_frame_condition :
    (∀ items : List DishRecord,
      (flatten_items_with_variants items).2 = items.map eraseVariants) ∧
    (∀ d : DishRecord, (eraseVariants d).res_id = d.res_id ∧
      (eraseVariants d).restaurant = d.restaurant ∧
      (eraseVariants d).subzone = d.subzone ∧
      (eraseVariants d).category = d.category ∧
      (eraseVariants d).dish_name = d.dish_name ∧
      (eraseVariants d).description = d.description ∧
      (eraseVariants d).base_price = d.base_price ∧
      (eraseVariants d).final_price = d.final_price ∧
      (eraseVariants d).flashSale = d.flashSale ∧
      (eraseVariants d).inStock = d.inStock ∧
      (eraseVariants d).image = d.image) := by
  refine ⟨?_, fun d => ⟨rfl, rfl, rfl, rfl, rfl, rfl, rfl, rfl, rfl, rfl, rfl⟩⟩
  intro items
  induction items with
  | nil => rfl
  | cons d rest ih =>
    rw [flatten_items_with_variants]
    rcases hrec : flatten_items_with_variants rest with ⟨more, post⟩
    rw [hrec] at ih
    simpa using ih

/-- C10: the in-stock flag of every emitted record is the Python boolean
coercion of the raw `inStock` entry with `0` as the default: absent,
`0`, `None` or empty values give `false`; any truthy value gives `true`. -/
theorem instock_boolean_coercion :
    ∀ (fields : List (String × JVal)) (a b c d : JVal)
      (rs : List DishRecord) (r : DishRecord),
      parse_item (JVal.obj fields) a b c d = Except.ok rs → r ∈ rs →
      r.inStock = ((jfind fields "inStock").getD (JVal.int 0)).truthy := by
  intro fields a b c d rs r hok hm
  exact (parse_item_mem_spec hok hm).2.2 fields rfl

/-- The item fields used by the in-stock witness. -/
def wFields10 : List (String × JVal) :=
  [("name", JVal.str "X"), ("price", JVal.int 100), ("inStock", JVal.int 1)]

/-- The record `parse_item` emits from `wFields10`. -/
def wRec10 : DishRecord :=
  { res_id := .null, restaurant := .null, subzone := .str "",
    category := .str "", dish_name := .str "X", description := .str "",
    base_price := 1, final_price := none, flashSale := "OFF",
    inStock := true, image := none, variants := [] }

theorem instock_boolean_coercion_witness :
    wRec10.inStock = ((jfind wFields10 "inStock").getD (JVal.int 0)).truthy :=
  instock_boolean_coercion wFields10 .null .null .null .null [wRec10] wRec10 rfl
    (List.Mem.head _)

/-- C3 counterexample: an item whose dish-level `price` is the non-numeric
string `"abc"` is not emitted with price `0`; `parse_item` raises (the
division `"abc"/100` is a `TypeError`). -/
theorem nonnumeric_price_cex :
    parse_item (JVal.obj [("name", JVal.str "X"), ("price", JVal.str "abc")])
      JVal.null JVal.null JVal.null JVal.null = Except.error () ∧
    ∀ rs : List DishRecord,
      parse_item (JVal.obj [("name", JVal.str "X"), ("price", JVal.str "abc")])
        JVal.null JVal.null JVal.null JVal.null ≠ Except.ok rs :=
  ⟨rfl, fun _ h => Except.noConfusion h⟩

/-- A dish with two variations whose prices are non-numeric: the truthy
string `"abc"` and the falsy string `""`. -/
def wVarCoerceInfo : JVal := .obj [("name", .str "X"), ("price", .int 100),
  ("variantsV2", .obj [("variantGroups", .arr [.obj [("name", .str "Size"),
    ("variations", .arr [.obj [("name", .str "L"), ("price", .str "abc")],
                         .obj [("name", .str "M"), ("price", .str "")]])]])])]

/-- The record `parse_item` emits from `wVarCoerceInfo`: both variant price
deltas are coerced to `0` (the truthy `"abc"` via the `try/except
int(raw_price)`, the falsy `""` via the `or`-chain default). -/
def wVarCoerceRec : DishRecord :=
  { res_id := .null, restaurant := .null, subzone := .str "",
    category := .str "", dish_name := .str "X", description := .str "",
    base_price := 1, final_price := none, flashSale := "OFF",
    inStock := false, image := none,
    variants := [{ variant_group := .str "Size", variant_name := .str "L",
                   variant_price_add := 0, variant_inStock := .null,
                   variant_isDefault := .int 0, variant_isEnabled := .bool true },
                 { variant_group := .str "Size", variant_name := .str "M",
                   variant_price_add := 0, variant_inStock := .null,
                   variant_isDefault := .int 0, variant_isEnabled := .bool true }] }

/-- The record `parse_item` emits when the dish-level `price` is a falsy
non-numeric value (`""`, `None`, `[]`, `{}`): the `or`-chain falls through
to `0` and the item is emitted with base price `0`. -/
def wFalsyRec : DishRecord :=
  { res_id := .null, restaurant := .null, subzone := .str "",
    category := .str "", dish_name := .str "X", description := .str "",
    base_price := 0, final_price := none, flashSale := "OFF",
    inStock := false, image := none, variants := [] }

/-- A menu document whose single item carries the non-numeric price. -/
def wBadPriceDoc : JVal := .obj [("data", .obj [("cards", .arr
    [.obj [("groupedCard", .obj [("cardGroupMap", .obj [("REGULAR", .obj [("cards", .arr
      [.obj [("card", .obj [("card", .obj [("title", .str "Cat"), ("itemCards", .arr
        [.obj [("card", .obj [("info", .obj [("name", .str "X"),
           ("price", .str "abc")])])]])])])]])])])])]])])]

/-- C3 (amended): coercion of a non-numeric price to `0` holds for every
variant-level price value (falsy values fall through the `or`-default of
line 61; truthy non-numeric values are caught by the
`try/except int(raw_price)` of lines 62-65) and for falsy non-numeric
dish-level values (`None`, `""`, `[]`, `{}`), which fall through the
`or`-chain of line 52 to `0` with the item still emitted.  But a truthy
non-numeric dish-level `price`, `defaultPrice` or `finalPrice` raises
inside `parse_item` (lines 52-53 have no handler): that item is not
emitted, and a menu parse reaching it aborts the remaining traversal and
returns only what was accumulated before (here: nothing), without raising. -/
theorem nonnumeric_price_amended :
    parse_item (JVal.obj [("name", JVal.str "X"), ("price", JVal.str "abc")])
      JVal.null JVal.null JVal.null JVal.null = Except.error () ∧
    parse_item (JVal.obj [("name", JVal.str "X"), ("defaultPrice", JVal.str "abc")])
      JVal.null JVal.null JVal.null JVal.null = Except.error () ∧
    parse_item (JVal.obj [("name", JVal.str "X"), ("price", JVal.int 100),
        ("finalPrice", JVal.str "abc")])
      JVal.null JVal.null JVal.null JVal.null = Except.error () ∧
    parse_item (JVal.obj [("name", JVal.str "X"), ("price", JVal.str "")])
      JVal.null JVal.null JVal.null JVal.null = Except.ok [wFalsyRec] ∧
    parse_item (JVal.obj [("name", JVal.str "X"), ("price", JVal.null)])
      JVal.null JVal.null JVal.null JVal.null = Except.ok [wFalsyRec] ∧
    parse_item (JVal.obj [("name", JVal.str "X"), ("price", JVal.arr [])])
      JVal.null JVal.null JVal.null JVal.null = Except.ok [wFalsyRec] ∧
    wFalsyRec.base_price = 0 ∧
    parse_item wVarCoerceInfo JVal.null JVal.null JVal.null JVal.null
      = Except.ok [wVarCoerceRec] ∧
    (wVarCoerceRec.variants.map fun v => v.variant_price_add) = [0, 0] ∧
    parse_menu_from_data wBadPriceDoc = [] :=
  ⟨rfl, rfl, rfl, rfl, rfl, rfl, rfl, rfl, rfl, rfl⟩

/-- A well-formed menu card holding one item named `nm` with price `p`. -/
def wMenuCard (nm : String) (p : ℤ) : JVal :=
  .obj [("card", .obj [("card", .obj [("title", .str "Cat"), ("itemCards", .arr
    [.obj [("card", .obj [("info", .obj [("name", .str nm),
       ("price", .int p)])])]])])])]

/-- The record the menu parser emits for `wMenuCard` (no restaurant scan hit). -/
def wCardRec (nm : String) (p : ℤ) : DishRecord :=
  { res_id := .null, restaurant := .null, subzone := .str "",
    category := .str "Cat", dish_name := .str nm, description := .str "",
    base_price := round2 (Rat.divInt p 100), final_price := none, flashSale := "OFF",
    inStock := false, image := none, variants := [] }

/-- Grouped cards `[good A, garbage, good B]`: the garbage card aborts the
remaining traversal. -/
def wAbortDoc : JVal := .obj [("data", .obj [("cards", .arr
    [.obj [("groupedCard", .obj [("cardGroupMap", .obj [("REGULAR", .obj [("cards", .arr
      [wMenuCard "A" 100, .int 5, wMenuCard "B" 200])])])])]])])]

/-- C4 counterexample: with grouped cards `[good A, garbage, good B]`, the
parser returns only dish `A` — the failing card is not merely skipped, it
aborts the traversal of card `B` as well. -/
theorem fault_isolation_cex :
    parse_menu_from_data wAbortDoc = [wCardRec "A" 100] ∧
    (wCardRec "A" 100).dish_name = JVal.str "A" :=
  ⟨rfl, rfl⟩

/-- A restaurant-info card for the scan-tolerance demonstration. -/
def wRestCard : JVal := .obj [("card", .obj [("card", .obj [("info", .obj
    [("name", .str "Test Diner"), ("id", .str "9"), ("areaName", .str "Z")])])])]

/-- A grouped-menu card wrapping the given regular cards. -/
def wGroupWrap (cs : List JVal) : JVal :=
  .obj [("groupedCard", .obj [("cardGroupMap", .obj [("REGULAR",
    .obj [("cards", .arr cs)])])])]

/-- Top-level cards `[garbage, restaurant info, grouped menu]`: the
restaurant and grouped-card scans skip the garbage card. -/
def wScanDoc : JVal := .obj [("data", .obj [("cards", .arr
    [.int 5, wRestCard, wGroupWrap [wMenuCard "A" 100]])])]

/-- The record the menu parser emits from `wScanDoc`. -/
def wScanRec : DishRecord :=
  { res_id := .str "9", restaurant := .str "Test Diner", subzone := .str "Z",
    category := .str "Cat", dish_name := .str "A", description := .str "",
    base_price := 1, final_price := none, flashSale := "OFF",
    inStock := false, image := none, variants := [] }

/-- One offer whose header is `t`, as a raw candidate node. -/
def wOfferNode (t : String) : JVal := .obj [("info", .obj [("header", .str t)])]

/-- The record the offer parser emits for `wOfferNode` with no restaurant. -/
def wOfferRec (t : String) : OfferRecord :=
  { res_id := .null, restaurant := .str "", subzone := .str "",
    title := .str t, code := .str "", description := .str "",
    discount := .str "",
    image := .str "https://via.placeholder.com/120?text=No+Logo" }

/-- An offer-bearing card wrapping the given raw offer nodes. -/
def wOfferCard (os : List JVal) : JVal :=
  .obj [("card", .obj [("card", .obj [("offers", .arr os)])])]

/-- Offer cards: the first card's offer list is `[O1, garbage, O3]`, the
second card's is `[O2]`. -/
def wOffersDoc : JVal := .obj [("data", .obj [("cards", .arr
    [wOfferCard [wOfferNode "O1", .int 5, wOfferNode "O3"],
     wOfferCard [wOfferNode "O2"]])])]

/-- C4 (amended): fault isolation is per-card only in the restaurant-info
scan, the grouped-card scan and the offer parser.  In the menu item
traversal (cards/categories/items) an exception aborts the remaining
traversal: the parser never raises and returns exactly the records
accumulated before the failure.  In the offer parser a failing card loses
its own not-yet-appended offers but later cards are still processed. -/
theorem fault_isolation_amended :
    parse_menu_from_data wAbortDoc = [wCardRec "A" 100] ∧
    parse_menu_from_data wScanDoc = [wScanRec] ∧
    extract_offers_from_data wOffersDoc = [wOfferRec "O1", wOfferRec "O2"] :=
  ⟨rfl, rfl, rfl⟩

/-- The dish node of the divisor-asymmetry claim: price `n` on the dish and
price `n` on one variation inside one variant group. -/
def wDishNode (n : ℤ) : JVal := .obj [("name", .str "D"), ("price", .int n),
  ("variantsV2", .obj [("variantGroups", .arr [.obj [("name", .str "G"),
    ("variations", .arr [.obj [("name", .str "L"), ("price", .int n)]])]])])]

/-- The record `parse_item` emits from `wDishNode 25000`. -/
def wRec6 : DishRecord :=
  { res_id := .null, restaurant := .null, subzone := .str "",
    category := .str "", dish_name := .str "D", description := .str "",
    base_price := 250, final_price := none, flashSale := "OFF",
    inStock := false, image := none,
    variants := [{ variant_group := .str "G", variant_name := .str "L",
                   variant_price_add := 25000, variant_inStock := .null,
                   variant_isDefault := .int 0, variant_isEnabled := .bool true }] }

/-- C6: dish base prices are divided by 100 (and rounded to two decimals)
while variant price deltas are not: for any nonzero integer price `n` the
base price is `n / 100` and the variant delta is `n`; at `n = 25000` the
base price is `250` and the delta `25000`. -/
theorem price_divisor_asymmetry :
    (∀ n : ℤ, n ≠ 0 →
      ∃ r : DishRecord,
        parse_item (wDishNode n) JVal.null JVal.null JVal.null JVal.null
          = Except.ok [r] ∧
        r.base_price = (n : ℚ) / 100 ∧
        (r.variants.map fun v => v.variant_price_add) = [(n : ℚ)]) ∧
    (parse_item (wDishNode 25000) JVal.null JVal.null JVal.null JVal.null
        = Except.ok [wRec6] ∧
      wRec6.base_price = 250 ∧
      (wRec6.variants.map fun v => v.variant_price_add) = [25000]) := by
  constructor
  · intro n hn
    have ht : (JVal.int n).truthy = true := by
      simpa [JVal.truthy] using hn
    have hb : round2 (Rat.divInt n 100) = Rat.divInt n 100 := by
      refine round2_eq_self (m := n) ?_
      rw [Rat.divInt_eq_div]
      push_cast
      field_simp
    refine ⟨{ res_id := .null, restaurant := .null, subzone := .str "",
              category := .str "", dish_name := .str "D", description := .str "",
              base_price := round2 (Rat.divInt n 100), final_price := none,
              flashSale := "OFF", inStock := false, image := none,
              variants := [{ variant_group := .str "G", variant_name := .str "L",
                             variant_price_add := round2 (Rat.divInt n 1),
                             variant_inStock := .null, variant_isDefault := .int 0,
                             variant_isEnabled := .bool true }] }, ?_, ?_, ?_⟩
    · have ht2 : (n != 0) = true := by simpa using hn
      simp [parse_item, wDishNode, orGet, finalPriceOf, categoryOf,
        variantGroupsLoop, variationsLoop, asList, pyDiv, pyInt,
        JVal.get, JVal.getD, jfind, JVal.truthy, ht2,
        Bind.bind, Except.bind, Pure.pure, Except.pure]
      rfl
    · rw [hb, Rat.divInt_eq_div]
      push_cast
      rfl
    · simp only [List.map_cons, List.map_nil, round2_divInt_one]
  · exact ⟨rfl, by decide, by decide⟩

theorem price_divisor_asymmetry_witness :
    ∃ r : DishRecord,
      parse_item (wDishNode 25000) JVal.null JVal.null JVal.null JVal.null
        = Except.ok [r] ∧
      r.base_price = (25000 : ℚ) / 100 ∧
      (r.variants.map fun v => v.variant_price_add) = [(25000 : ℚ)] :=
  price_divisor_asymmetry.1 25000 (by decide)

/-- The spec-side mismatch condition: no reference offer has an equal
(title, code) pair. -/
def noRefMatch (refN : List OfferRow) (r : OfferRow) : Prop :=
  ∀ q ∈ refN, ¬(q.title = r.title ∧ q.code = r.code)

instance (refN : List OfferRow) (r : OfferRow) : Decidable (noRefMatch refN r) :=
  inferInstanceAs (Decidable (∀ q ∈ refN, ¬(q.title = r.title ∧ q.code = r.code)))

/-- Adding the boolean marker column, filtering on its negation and
dropping it again is a plain filter. -/
theorem marker_pipeline (l : List OfferRow) (p : OfferRow → Bool) :
    ((l.map (fun r => (r, p r))).filter (fun x => !x.2)).map (fun x => x.1)
      = l.filter (fun r => !p r) := by
  induction l with
  | nil => rfl
  | cons a rest ih =>
    simp only [List.map_cons, List.filter_cons]
    by_cases hp : p a
    · simp [hp, ih]
    · simp [hp, ih]

/-- The negated `any`-scan marker agrees with the spec-side condition. -/
theorem marker_eq_noRefMatch (refN : List OfferRow) (r : OfferRow) :
    (!refN.any (fun q => q.title == r.title && q.code == r.code))
      = decide (noRefMatch refN r) := by
  by_cases h : noRefMatch refN r
  · rw [decide_eq_true h]
    have hany : refN.any (fun q => q.title == r.title && q.code == r.code) = false := by
      rw [List.any_eq_false]
      intro q hq
      simp only [Bool.and_eq_true, beq_iff_eq, not_and]
      intro h1 h2
      exact h q hq ⟨h1, h2⟩
    rw [hany]
    rfl
  · rw [decide_eq_false h]
    have hany : refN.any (fun q => q.title == r.title && q.code == r.code) = true := by
      rw [List.any_eq_true]
      rw [noRefMatch] at h
      push_neg at h
      obtain ⟨q, hq, h1, h2⟩ := h
      exact ⟨q, hq, by simp [h1, h2]⟩
    rw [hany]
    rfl

/-- C7: with a non-empty scraped collection, reconciliation trims the
title and code of every record in both collections and returns exactly the
(normalized) scraped offers for which no reference offer has an equal
(title, code) pair, in the original scraped order, without the internal
match marker; in particular reconciling any non-empty collection against
itself yields an empty mismatch list. -/
theorem offer_reconciliation :
    (∀ ref scraped : List OfferRow, scraped ≠ [] →
      compare_offers ref scraped = Except.ok ((scraped.map stripRow).filter
        (fun r => decide (noRefMatch (ref.map stripRow) r)))) ∧
    (∀ X : List OfferRow, X ≠ [] → compare_offers X X = Except.ok []) := by
  have part1 : ∀ ref scraped : List OfferRow, scraped ≠ [] →
      compare_offers ref scraped = Except.ok ((scraped.map stripRow).filter
        (fun r => decide (noRefMatch (ref.map stripRow) r))) := by
    intro ref scraped hne
    rw [compare_offers]
    rw [if_neg (by simpa [List.isEmpty_iff] using hne)]
    rw [marker_pipeline]
    congr 1
    apply List.filter_congr
    intro r _
    exact marker_eq_noRefMatch (ref.map stripRow) r
  refine ⟨part1, ?_⟩
  intro X hne
  rw [part1 X X hne]
  congr 1
  rw [List.filter_eq_nil_iff]
  intro r hr
  simp only [decide_eq_true_eq]
  intro hno
  exact hno r hr ⟨rfl, rfl⟩

/-- The reference row of the reconciliation witness (whitespace-padded). -/
def wRef7 : List OfferRow := [⟨" 50% OFF ", "HALF", []⟩]

/-- The scraped row of the reconciliation witness. -/
def wScr7 : List OfferRow := [⟨"50% OFF", " HALF ", []⟩]

theorem offer_reconciliation_witness :
    (compare_offers wRef7 wScr7 = Except.ok ((wScr7.map stripRow).filter
      (fun r => decide (noRefMatch (wRef7.map stripRow) r)))) ∧
    compare_offers wScr7 wScr7 = Except.ok [] :=
  ⟨offer_reconciliation.1 wRef7 wScr7 (fun h => List.noConfusion h),
   offer_reconciliation.2 wScr7 (fun h => List.noConfusion h)⟩
